import Mathlib

/-!
Verification of the `patcher` repository orchestrator (`repo.go`).

The orchestrator builds ordered lists of external-tool commands (argument
list + working directory) and dispatches them to a command runner,
short-circuiting on the first failure.  We embed it shallowly:

* strings are `List Char` (`Str`), built from literals via `strList`;
* the command runner is a function `Command → Option Str`
  (`none` = success, `some e` = the runner's error), and the
  combined-output runner is `Command → Str × Option Str`;
* each operation is a Lean function returning the trace of issued
  commands together with its outcome;
* `filepath.Join` is modelled for already-clean relative path arguments
  (the only shapes the orchestrator produces) as separator concatenation;
* the two Go regular expressions — `(src/.*)/(src/.*)` in `BumpSubmodule`
  and `^.*is in submodule '(.*)'` in `PatchSubmodule` — are modelled by
  executable matchers implementing Go's leftmost-first / greedy submatch
  semantics, with `.` not matching a newline.
-/

/-- Strings of the embedded program, as lists of characters. -/
abbrev Str := List Char

/-- Conversion from Lean string literals to the embedded string type. -/
def strList (s : String) : Str := s.data

/-- The apostrophe character, used by commit-message and diagnostic literals. -/
def quoteChar : Char := Char.ofNat 39

/-- A single invocation of the external version-control tool:
ordered argument list plus working directory (`Command` in the source). -/
structure Command where
  args : List Str
  dir : Str
deriving DecidableEq

/-- The repository handle (`Repo` in the source): root path and committer
identity.  The runner is passed separately to each operation. -/
structure Repo where
  repo : Str
  committerName : Str
  committerEmail : Str
deriving DecidableEq

/-- `filepath.Join` of Go, modelled for clean path arguments (no `.`/`..`
segments, no duplicate or trailing separators): empty components are
skipped and the rest are joined with `/`. -/
def filepathJoin (a b : Str) : Str :=
  if a = [] then b else if b = [] then a else a ++ '/' :: b

/-- Dispatch a command list to the runner in order, stopping at the first
failure (the `for … { if err := r.runner.Run(command); err != nil { return err } }`
loops of the source).  Returns the trace of issued commands and the
first error, if any. -/
def runAll (run : Command → Option Str) : List Command → List Command × Option Str
  | [] => ([], none)
  | c :: cs =>
    match run c with
    | some e => ([c], some e)
    | none =>
      let rest := runAll run cs
      (c :: rest.1, rest.2)

/-- The commit command the source builds (committer identity passed as
inline `-c` configuration, hook bypass via `--no-verify`), with the given
message and working directory. -/
def commitCommand (r : Repo) (msg : Str) (dir : Str) : Command :=
  { args := [strList "-c", strList "user.name=" ++ r.committerName,
             strList "-c", strList "user.email=" ++ r.committerEmail,
             strList "commit",
             strList "-m", msg,
             strList "--no-verify"],
    dir := dir }

/-- Recognizes the commit commands among the commands the orchestrator
builds: they are exactly the ones whose first argument is the literal
`-c` (every other command starts with `fetch`, `checkout`, `clean`,
`submodule`, `add`, `am`, `rm` or `rev-parse`). -/
def isCommitCommand (c : Command) : Bool :=
  match c.args with
  | a :: _ => a == strList "-c"
  | [] => false

/-! ### The `(src/.*)/(src/.*)` matcher of `BumpSubmodule`

`regexp.FindStringSubmatch` with pattern `(src/.*)/(src/.*)`: the match
starts at the leftmost index where `src/` is followed (within the same
line, since `.` does not match `\n`) by a later `/src/`; the first `.*`
is greedy, so the separator is the **last** occurrence of `/src/` in
that line; the final `.*` is greedy and extends to the end of the line. -/

/-- The literal `src/`. -/
def srcMark : Str := strList "src/"

/-- The literal `/src/`. -/
def sepMark : Str := strList "/src/"

/-- Result of `FindStringSubmatch` for `(src/.*)/(src/.*)` on `s`:
`some (outer, inner)` gives the two capture groups, `none` means no match. -/
def bumpMatch (s : Str) : Option (Str × Str) :=
  match (List.range (s.length + 1)).find? (fun i =>
      srcMark.isPrefixOf (s.drop i) &&
      decide (sepMark <:+: (s.drop (i + 4)).takeWhile (fun c => c != '\n'))) with
  | none => none
  | some i =>
    let t := (s.drop (i + 4)).takeWhile (fun c => c != '\n')
    match (List.range (t.length + 1)).reverse.find? (fun k =>
        sepMark.isPrefixOf (t.drop k)) with
    | none => none
    | some k => some (srcMark ++ t.take k, t.drop (k + 1))

/-! ### The `^.*is in submodule '(.*)'` matcher of `PatchSubmodule`

Anchored at the start; `.` does not match `\n`, so the whole match lies
in the first line of the output.  The leading `.*` is greedy, so the
marker occurrence used is the **last** `is in submodule '` of the first
line that is still followed by a closing apostrophe there; the capture
group is greedy, extending to the **last** apostrophe after the marker. -/

/-- The literal `is in submodule '` (17 characters). -/
def subMark : Str := strList "is in submodule " ++ [quoteChar]

/-- `some capture` when `^.*is in submodule '(.*)'` matches `out`
(`capture` is the single capture group), `none` otherwise. -/
def matchSubmodule (out : Str) : Option Str :=
  let line := out.takeWhile (fun c => c != '\n')
  match (List.range (line.length + 1)).reverse.find? (fun k =>
      subMark.isPrefixOf (line.drop k) && (line.drop (k + 17)).contains quoteChar) with
  | none => none
  | some k =>
    let rest := line.drop (k + 17)
    match rest.reverse.findIdx? (fun c => c == quoteChar) with
    | none => none
    | some j => some (rest.take (rest.length - 1 - j))

/-! ### Command plans of the operations -/

/-- The six commands of `Checkout`. -/
def checkoutCommands (r : Repo) (checkoutRef : Str) : List Command :=
  [⟨[strList "checkout", checkoutRef], r.repo⟩,
   ⟨[strList "clean", strList "-ffd"], r.repo⟩,
   ⟨[strList "submodule", strList "init"], r.repo⟩,
   ⟨[strList "submodule", strList "foreach", strList "--recursive",
     strList "git submodule sync"], r.repo⟩,
   ⟨[strList "submodule", strList "update", strList "--init", strList "--recursive",
     strList "--force", strList "--jobs=4"], r.repo⟩,
   ⟨[strList "submodule", strList "foreach", strList "--recursive",
     strList "git clean -ffd"], r.repo⟩]

/-- `Checkout`: dispatch the six commands in order, abort on first failure. -/
def checkout (r : Repo) (run : Command → Option Str) (checkoutRef : Str) :
    List Command × Option Str :=
  runAll run (checkoutCommands r checkoutRef)

/-- The single command of `ApplyPatch`. -/
def applyPatchCommand (r : Repo) (patch : Str) : Command :=
  ⟨[strList "am", patch], r.repo⟩

/-- `ApplyPatch`: one `am` invocation at the root, error surfaced unmodified. -/
def applyPatch (r : Repo) (run : Command → Option Str) (patch : Str) :
    List Command × Option Str :=
  match run (applyPatchCommand r patch) with
  | some e => ([applyPatchCommand r patch], some e)
  | none => ([applyPatchCommand r patch], none)

/-- The eight commands of `AddSubmodule` (the registration command takes the
`-b` form exactly when a branch was supplied). -/
def addSubmoduleCommands (r : Repo) (path url ref branch : Str) : List Command :=
  let pathToSubmodule := filepathJoin r.repo path
  let submoduleAddArgs :=
    if branch != [] then
      [strList "submodule", strList "add", strList "--force", strList "-b", branch, url, path]
    else
      [strList "submodule", strList "add", strList "--force", url, path]
  [⟨submoduleAddArgs, r.repo⟩,
   ⟨[strList "checkout", ref], pathToSubmodule⟩,
   ⟨[strList "submodule", strList "foreach", strList "--recursive",
     strList "git submodule sync"], pathToSubmodule⟩,
   ⟨[strList "submodule", strList "update", strList "--init", strList "--recursive",
     strList "--force", strList "--jobs=4"], pathToSubmodule⟩,
   ⟨[strList "submodule", strList "foreach", strList "--recursive",
     strList "git clean -ffd"], r.repo⟩,
   ⟨[strList "clean", strList "-ffd"], pathToSubmodule⟩,
   ⟨[strList "add", strList "-A", path], r.repo⟩,
   commitCommand r (strList "Knit addition of " ++ path) r.repo]

/-- `AddSubmodule`. -/
def addSubmodule (r : Repo) (run : Command → Option Str) (path url ref branch : Str) :
    List Command × Option Str :=
  runAll run (addSubmoduleCommands r path url ref branch)

/-- The three commands of `RemoveSubmodule`. -/
def removeSubmoduleCommands (r : Repo) (path : Str) : List Command :=
  [⟨[strList "submodule", strList "deinit", strList "-f", path], r.repo⟩,
   ⟨[strList "rm", strList "-f", path], r.repo⟩,
   commitCommand r
     (strList "Knit removal of submodule " ++ quoteChar :: path ++ [quoteChar]) r.repo]

/-- `RemoveSubmodule`. -/
def removeSubmodule (r : Repo) (run : Command → Option Str) (path : Str) :
    List Command × Option Str :=
  runAll run (removeSubmoduleCommands r path)

/-- The nine commands `BumpSubmodule` always builds: the first seven act on
`pathToSubmodule` (resolved from the *original* path argument) or the root,
the `add`/`commit` pair acts on `pathToRepo` with the possibly-rewritten
`pathArg` (`path = matches[2]` after a nested match). -/
def bumpCoreCommands (r : Repo) (pathToSubmodule pathArg pathToRepo sha : Str) :
    List Command :=
  [⟨[strList "fetch"], pathToSubmodule⟩,
   ⟨[strList "checkout", sha], pathToSubmodule⟩,
   ⟨[strList "submodule", strList "init"], pathToSubmodule⟩,
   ⟨[strList "submodule", strList "sync"], pathToSubmodule⟩,
   ⟨[strList "submodule", strList "update", strList "--init", strList "--recursive",
     strList "--force", strList "--jobs=4"], pathToSubmodule⟩,
   ⟨[strList "submodule", strList "foreach", strList "--recursive",
     strList "git clean -ffd"], r.repo⟩,
   ⟨[strList "clean", strList "-ffd"], pathToSubmodule⟩,
   ⟨[strList "add", strList "-A", pathArg], pathToRepo⟩,
   commitCommand r (strList "Knit bump of " ++ pathArg) pathToRepo]

/-- The full command plan of `BumpSubmodule`: when the nested-path regex
matches, `pathToRepo` becomes the resolved outer directory, the core
`add`/`commit` uses the inner group, and a second `add`/`commit` pair at
the root (staging the outer group) is appended. -/
def bumpSubmoduleCommands (r : Repo) (path sha : Str) : List Command :=
  let pathToSubmodule := filepathJoin r.repo path
  match bumpMatch path with
  | some (outer, inner) =>
    bumpCoreCommands r pathToSubmodule inner (filepathJoin r.repo outer) sha ++
      [⟨[strList "add", strList "-A", outer], r.repo⟩,
       commitCommand r (strList "Knit bump of " ++ outer) r.repo]
  | none => bumpCoreCommands r pathToSubmodule path r.repo sha

/-- `BumpSubmodule`. -/
def bumpSubmodule (r : Repo) (run : Command → Option Str) (path sha : Str) :
    List Command × Option Str :=
  runAll run (bumpSubmoduleCommands r path sha)

/-! ### `PatchSubmodule` -/

/-- Outcome of a `PatchSubmodule` call: a normal return (with `none` for
success or `some e` for a returned error), or the abnormal termination
(a Go runtime panic) from indexing the absent capture group when the
staging diagnostic does not match the expected pattern. -/
inductive POutcome where
  | returned : Option Str → POutcome
  | crashed : POutcome
deriving DecidableEq

/-- The initial `am` command of `PatchSubmodule`, run inside the submodule. -/
def patchApplyCommand (r : Repo) (path patchFile : Str) : Command :=
  ⟨[strList "am", patchFile], filepathJoin r.repo path⟩

/-- The staging command of `PatchSubmodule`, run at the root via
`CombinedOutput`. -/
def patchAddCommand (r : Repo) (path : Str) : Command :=
  ⟨[strList "add", strList "-A", path], r.repo⟩

/-- The fallback commands of `PatchSubmodule` once a nested submodule path
has been extracted from the staging diagnostic: stage everything and
commit at the resolved nested directory. -/
def patchSubCommands (r : Repo) (submodulePath : Str) : List Command :=
  let absoluteSubmodulePath := filepathJoin r.repo submodulePath
  [⟨[strList "add", strList "-A", strList "."], absoluteSubmodulePath⟩,
   commitCommand r (strList "Knit submodule patch of " ++ submodulePath)
     absoluteSubmodulePath]

/-- The final commands of `PatchSubmodule`: stage everything and commit at
the root. -/
def patchCommitCommands (r : Repo) (path : Str) : List Command :=
  [⟨[strList "add", strList "-A", strList "."], r.repo⟩,
   commitCommand r (strList "Knit patch of " ++ path) r.repo]

/-- `PatchSubmodule`: apply the patch inside `path`; stage at the root via
`CombinedOutput`; on staging failure parse the diagnostic for the nested
submodule path (`re.FindStringSubmatch(output)[1]` — a panic, `crashed`,
when the pattern does not match) and stage-and-commit there; finally
stage-and-commit at the root. -/
def patchSubmodule (r : Repo) (run : Command → Option Str)
    (co : Command → Str × Option Str) (path patchFile : Str) :
    List Command × POutcome :=
  let applyCommand := patchApplyCommand r path patchFile
  match run applyCommand with
  | some e => ([applyCommand], POutcome.returned (some e))
  | none =>
    let addCommand := patchAddCommand r path
    match co addCommand with
    | (output, some _) =>
      match matchSubmodule output with
      | none => ([applyCommand, addCommand], POutcome.crashed)
      | some submodulePath =>
        match runAll run (patchSubCommands r submodulePath) with
        | (t, some e) =>
          (applyCommand :: addCommand :: t, POutcome.returned (some e))
        | (t, none) =>
          let rest := runAll run (patchCommitCommands r path)
          (applyCommand :: addCommand :: (t ++ rest.1), POutcome.returned rest.2)
    | (_, none) =>
      let rest := runAll run (patchCommitCommands r path)
      (applyCommand :: addCommand :: rest.1, POutcome.returned rest.2)

/-! ### `CheckoutBranch` -/

/-- The branch-existence verification command of `CheckoutBranch`. -/
def revParseCommand (r : Repo) (name : Str) : Command :=
  ⟨[strList "rev-parse", strList "--verify", strList "refs/heads/" ++ name], r.repo⟩

/-- The create-and-checkout command of `CheckoutBranch`. -/
def checkoutBranchCommand (r : Repo) (name : Str) : Command :=
  ⟨[strList "checkout", strList "-b", name], r.repo⟩

/-- The error built by `fmt.Errorf("Branch %q already exists. Please delete
it before trying again", name)`; `%q` is modelled for names containing no
character Go would escape. -/
def branchExistsError (name : Str) : Str :=
  strList "Branch \"" ++ name ++
    strList "\" already exists. Please delete it before trying again"

/-- `CheckoutBranch`: if the verification command *succeeds* the branch
already exists and a descriptive error is returned without attempting
creation; on any verification failure the create-and-checkout command is
issued and its result returned unmodified. -/
def checkoutBranch (r : Repo) (run : Command → Option Str) (name : Str) :
    List Command × Option Str :=
  match run (revParseCommand r name) with
  | none => ([revParseCommand r name], some (branchExistsError name))
  | some _ =>
    ([revParseCommand r name, checkoutBranchCommand r name],
      run (checkoutBranchCommand r name))

/-! ### `submodules` (manifest discovery) -/

/-- File-system errors, split the way `os.IsNotExist` splits them. -/
inductive FsError where
  | notExist : FsError
  | other : Str → FsError
deriving DecidableEq

/-- The file-system operations `submodules` uses: `ioutil.ReadFile` and
`os.Stat` (whose result is only inspected through `os.IsNotExist`). -/
structure FS where
  readFile : Str → Except FsError Str
  stat : Str → Except FsError Unit

/-- The manifest line marker `path = ` (`modulePrefix` in the source). -/
def modulePrefixStr : Str := strList "path = "

/-- ASCII white space, modelling `strings.TrimSpace` on the ASCII manifest
content the orchestrator reads. -/
def isSpaceChar (c : Char) : Bool :=
  c == ' ' || c == '\t' || c == '\n' || c == '\x0b' || c == '\x0c' || c == '\r'

/-- `strings.TrimSpace`. -/
def trimSpace (s : Str) : Str :=
  ((s.dropWhile isSpaceChar).reverse.dropWhile isSpaceChar).reverse

/-- `strings.Split(s, "\n")`. -/
def splitOnNl : Str → List Str
  | [] => [[]]
  | a :: t =>
    if a = '\n' then [] :: splitOnNl t
    else
      match splitOnNl t with
      | [] => [[a]]
      | h :: rest => (a :: h) :: rest

/-- The declared module paths of a manifest: each line is trimmed, and
lines starting with `path = ` contribute the remainder of the line. -/
def parseModulePaths (content : Str) : List Str :=
  ((splitOnNl content).map trimSpace).filterMap (fun line =>
    if modulePrefixStr.isPrefixOf line then some (line.drop 7) else none)

/-- `submodules`: read `.gitmodules` at the root (absence yields `ok []`,
any other read error is propagated); keep each declared path joined with
the root unless `os.Stat` on it fails with not-exist. -/
def submodules (r : Repo) (fs : FS) : Except FsError (List Str) :=
  match fs.readFile (filepathJoin r.repo (strList ".gitmodules")) with
  | .error .notExist => .ok []
  | .error e => .error e
  | .ok content =>
    .ok ((parseModulePaths content).filterMap (fun modulePath =>
      let fullModulePath := filepathJoin r.repo modulePath
      match fs.stat fullModulePath with
      | .error .notExist => none
      | _ => some fullModulePath))

/-! ### Shared lemmas about the dispatch loop -/

/-- A runner that succeeds on every command of the list dispatches the
whole list, in order, and the loop returns success. -/
theorem runAll_all_ok (run : Command → Option Str) :
    ∀ cmds : List Command, (∀ c ∈ cmds, run c = none) → runAll run cmds = (cmds, none) := by
  intro cmds
  induction cmds with
  | nil => intro _; rfl
  | cons c cs ih =>
    intro h
    have hc : run c = none := h c (List.mem_cons_self c cs)
    have hcs := ih (fun x hx => h x (List.mem_cons_of_mem c hx))
    simp [runAll, hc, hcs]

/-- If the loop returns success, the trace is the whole command list and
every command succeeded. -/
theorem runAll_ok_trace (run : Command → Option Str) :
    ∀ cmds t : List Command, runAll run cmds = (t, none) →
      t = cmds ∧ ∀ c ∈ cmds, run c = none := by
  intro cmds
  induction cmds with
  | nil =>
    intro t ht
    simp [runAll] at ht
    simp [ht]
  | cons c cs ih =>
    intro t ht
    cases hc : run c with
    | some e => simp [runAll, hc] at ht
    | none =>
      simp only [runAll, hc] at ht
      obtain ⟨ht1, ht2⟩ := Prod.mk.injEq .. ▸ ht
      have := ih (runAll run cs).1 (by rw [← ht2])
      obtain ⟨h1, h2⟩ := this
      constructor
      · rw [← ht1, h1]
      · intro x hx
        rcases List.mem_cons.mp hx with hx | hx
        · rw [hx]; exact hc
        · exact h2 x hx

/-- The first failure of the runner over `cmds` is at position `k`, with
error `e`: `k` is in range, the runner fails there with `e`, and succeeds
on every earlier command. -/
def firstFailAt (run : Command → Option Str) (cmds : List Command) (k : Nat) (e : Str) :
    Prop :=
  k < cmds.length ∧ run (cmds.getD k ⟨[], []⟩) = some e ∧
    ∀ j, j < k → run (cmds.getD j ⟨[], []⟩) = none

instance (run : Command → Option Str) (cmds : List Command) (k : Nat) (e : Str) :
    Decidable (firstFailAt run cmds k e) := by
  unfold firstFailAt
  infer_instance

/-- When the first failure is at position `k`, the loop issues exactly the
first `k + 1` commands and returns that error unmodified. -/
theorem runAll_firstFail (run : Command → Option Str) :
    ∀ (cmds : List Command) (k : Nat) (e : Str), firstFailAt run cmds k e →
      runAll run cmds = (cmds.take (k + 1), some e) := by
  intro cmds
  induction cmds with
  | nil =>
    intro k e h
    exact absurd h.1 (by simp)
  | cons c cs ih =>
    intro k e h
    obtain ⟨hk, hfail, hbefore⟩ := h
    cases k with
    | zero =>
      simp only [List.getD_cons_zero] at hfail
      simp [runAll, hfail]
    | succ k =>
      have hc : run c = none := by
        have := hbefore 0 (Nat.succ_pos k)
        simpa using this
      have hrest : runAll run cs = (cs.take (k + 1), some e) := by
        refine ih k e ⟨?_, ?_, ?_⟩
        · exact Nat.lt_of_succ_lt_succ (by simpa using hk)
        · simpa using hfail
        · intro j hj
          have := hbefore (j + 1) (Nat.succ_lt_succ hj)
          simpa using this
      simp [runAll, hc, hrest]

/-! ### Shared lemmas about commit filtering -/

/-- Among the nine core commands of `BumpSubmodule`, the only commit is the
one at `pathToRepo` with message `Knit bump of <pathArg>`. -/
theorem bumpCore_filter (r : Repo) (pathToSubmodule pathArg pathToRepo sha : Str) :
    (bumpCoreCommands r pathToSubmodule pathArg pathToRepo sha).filter isCommitCommand =
      [commitCommand r (strList "Knit bump of " ++ pathArg) pathToRepo] := rfl

/-- The final root stage-and-commit pair of `PatchSubmodule` contributes
exactly the root commit. -/
theorem patchCommit_filter (r : Repo) (path : Str) :
    (patchCommitCommands r path).filter isCommitCommand =
      [commitCommand r (strList "Knit patch of " ++ path) r.repo] := rfl

/-- The fallback stage-and-commit pair of `PatchSubmodule` contributes
exactly the nested-directory commit. -/
theorem patchSub_filter (r : Repo) (submodulePath : Str) :
    (patchSubCommands r submodulePath).filter isCommitCommand =
      [commitCommand r (strList "Knit submodule patch of " ++ submodulePath)
        (filepathJoin r.repo submodulePath)] := rfl

/-! ### Concrete instances used by witnesses -/

/-- A concrete repository handle for witness instances. -/
def wRepo : Repo := ⟨strList "/root", strList "alice", strList "alice@example.com"⟩

/-- A runner that succeeds on every command. -/
def wRunOk : Command → Option Str := fun _ => none

/-! ### C1 -/

/-- C1: for every path of the two-segment nested shape (the nested-path
regex matches with groups `outer`/`inner`), `BumpSubmodule` issues exactly
two commit commands: first `Knit bump of <inner>` in the resolved outer
directory (root joined with `outer`), then `Knit bump of <outer>` at the
root; and with a fault-free runner every planned command is dispatched in
that order. -/
theorem bumpSubmodule_nested_two_commits (r : Repo) (p sha outer inner : Str)
    (h : bumpMatch p = some (outer, inner)) :
    (bumpSubmoduleCommands r p sha).filter isCommitCommand =
      [commitCommand r (strList "Knit bump of " ++ inner) (filepathJoin r.repo outer),
       commitCommand r (strList "Knit bump of " ++ outer) r.repo] ∧
    ∀ run : Command → Option Str, (∀ c ∈ bumpSubmoduleCommands r p sha, run c = none) →
      bumpSubmodule r run p sha = (bumpSubmoduleCommands r p sha, none) := by
  constructor
  · simp only [bumpSubmoduleCommands, h]
    rw [List.filter_append, bumpCore_filter]
    rfl
  · intro run hr
    exact runAll_all_ok run _ hr

/-- Witness for C1 at `p = "src/a/src/b"`. -/
theorem bumpSubmodule_nested_two_commits_witness :
    (bumpSubmoduleCommands wRepo (strList "src/a/src/b") (strList "deadbeef")).filter
        isCommitCommand =
      [commitCommand wRepo (strList "Knit bump of " ++ strList "src/b")
        (filepathJoin wRepo.repo (strList "src/a")),
       commitCommand wRepo (strList "Knit bump of " ++ strList "src/a") wRepo.repo] ∧
    bumpSubmodule wRepo wRunOk (strList "src/a/src/b") (strList "deadbeef") =
      (bumpSubmoduleCommands wRepo (strList "src/a/src/b") (strList "deadbeef"), none) := by
  have h := bumpSubmodule_nested_two_commits wRepo (strList "src/a/src/b")
    (strList "deadbeef") (strList "src/a") (strList "src/b") (by decide)
  exact ⟨h.1, h.2 wRunOk (fun c _ => rfl)⟩

/-! ### C3 -/

/-- C3: for every path with no nested-submodule structure (the nested-path
regex does not match), `BumpSubmodule` issues exactly one commit command,
at the root, with message `Knit bump of <p>`; and with a fault-free runner
every planned command is dispatched in order. -/
theorem bumpSubmodule_flat_one_commit (r : Repo) (p sha : Str)
    (h : bumpMatch p = none) :
    (bumpSubmoduleCommands r p sha).filter isCommitCommand =
      [commitCommand r (strList "Knit bump of " ++ p) r.repo] ∧
    ∀ run : Command → Option Str, (∀ c ∈ bumpSubmoduleCommands r p sha, run c = none) →
      bumpSubmodule r run p sha = (bumpSubmoduleCommands r p sha, none) := by
  constructor
  · simp only [bumpSubmoduleCommands, h]
    exact bumpCore_filter r (filepathJoin r.repo p) p r.repo sha
  · intro run hr
    exact runAll_all_ok run _ hr

/-- Witness for C3 at `p = "a/b"`. -/
theorem bumpSubmodule_flat_one_commit_witness :
    (bumpSubmoduleCommands wRepo (strList "a/b") (strList "deadbeef")).filter
        isCommitCommand =
      [commitCommand wRepo (strList "Knit bump of " ++ strList "a/b") wRepo.repo] ∧
    bumpSubmodule wRepo wRunOk (strList "a/b") (strList "deadbeef") =
      (bumpSubmoduleCommands wRepo (strList "a/b") (strList "deadbeef"), none) := by
  have h := bumpSubmodule_flat_one_commit wRepo (strList "a/b") (strList "deadbeef")
    (by decide)
  exact ⟨h.1, h.2 wRunOk (fun c _ => rfl)⟩

/-! ### C5 -/

/-- C5: `BumpSubmodule` treats a path as nested exactly when the regex
`(src/.*)/(src/.*)` matches it — so both capture groups start with the
literal `src/`; a two-segment path like `a/b` is flat; the split is
greedy, sending `src/a/src/b/src/c` to outer `src/a/src/b` and inner
`src/c`; and the command plan carries two commits exactly when the regex
matches, one otherwise. -/
theorem bumpMatch_src_shape :
    (∀ p outer inner, bumpMatch p = some (outer, inner) →
        srcMark.isPrefixOf outer = true ∧ srcMark.isPrefixOf inner = true) ∧
    bumpMatch (strList "a/b") = none ∧
    bumpMatch (strList "src/a/src/b/src/c") =
      some (strList "src/a/src/b", strList "src/c") ∧
    (∀ (r : Repo) (p sha : Str),
      ((bumpSubmoduleCommands r p sha).filter isCommitCommand).length =
        if (bumpMatch p).isSome then 2 else 1) := by
  refine ⟨?_, by decide, by decide, ?_⟩
  · intro p outer inner h
    unfold bumpMatch at h
    rcases hf : (List.range (p.length + 1)).find? (fun i =>
        srcMark.isPrefixOf (p.drop i) &&
        decide (sepMark <:+: (p.drop (i + 4)).takeWhile (fun c => c != '\n'))) with _ | i
    · rw [hf] at h; exact absurd h (by simp)
    · rw [hf] at h
      simp only at h
      set t := (p.drop (i + 4)).takeWhile (fun c => c != '\n') with ht
      rcases hg : (List.range (t.length + 1)).reverse.find? (fun k =>
          sepMark.isPrefixOf (t.drop k)) with _ | k
      · rw [hg] at h; exact absurd h (by simp)
      · rw [hg] at h
        simp only [Option.some.injEq, Prod.mk.injEq] at h
        obtain ⟨houter, hinner⟩ := h
        have hk : sepMark.isPrefixOf (t.drop k) = true := by
          have := List.find?_some hg
          simpa using this
        have hkpre : sepMark <+: t.drop k := by
          rwa [List.isPrefixOf_iff_prefix] at hk
        obtain ⟨u, hu⟩ := hkpre
        constructor
        · rw [← houter]
          rw [List.isPrefixOf_iff_prefix]
          exact List.prefix_append srcMark (t.take k)
        · rw [← hinner]
          have hdrop : t.drop (k + 1) = (t.drop k).drop 1 := by
            rw [List.drop_drop, Nat.add_comm]
          rw [hdrop, ← hu]
          have hsep : sepMark ++ u = '/' :: (srcMark ++ u) := rfl
          rw [hsep]
          simp only [List.drop_succ_cons, List.drop_zero]
          rw [List.isPrefixOf_iff_prefix]
          exact List.prefix_append srcMark u
  · intro r p sha
    rcases hm : bumpMatch p with _ | ⟨outer, inner⟩
    · simp only [bumpSubmoduleCommands, hm, Option.isSome_none, Bool.false_eq_true,
        if_false]
      rw [bumpCore_filter]
      rfl
    · simp only [bumpSubmoduleCommands, hm, Option.isSome_some, if_true]
      rw [List.filter_append, bumpCore_filter]
      rfl

/-- Witness for C5: the capture groups of the greedy split of
`src/a/src/b/src/c` both start with `src/`. -/
theorem bumpMatch_src_shape_witness :
    srcMark.isPrefixOf (strList "src/a/src/b") = true ∧
      srcMark.isPrefixOf (strList "src/c") = true :=
  bumpMatch_src_shape.1 (strList "src/a/src/b/src/c")
    (strList "src/a/src/b") (strList "src/c") (by decide)

/-! ### C6 -/

/-- A combined-output runner whose staging fails with a diagnostic that
matches the "is in submodule" pattern with capture `x`. -/
def wCoSubFail : Command → Str × Option Str :=
  fun _ => (strList "error: Path is in submodule " ++ quoteChar :: strList "x" ++ [quoteChar],
    some (strList "exit status 1"))

/-- Counterexample to C6 as stated: in `PatchSubmodule` the staging
command is dispatched to the executor (via `CombinedOutput`) and here
fails with error `exit status 1`, yet the call issues four further
commands after it and returns success rather than that error — the
matching diagnostic triggers the submodule fallback instead of an abort. -/
theorem patchSubmodule_staging_failure_not_aborting :
    (wCoSubFail (patchAddCommand wRepo (strList "sub"))).2 =
      some (strList "exit status 1") ∧
    patchSubmodule wRepo wRunOk wCoSubFail (strList "sub") (strList "/tmp/fix.patch") =
      (patchApplyCommand wRepo (strList "sub") (strList "/tmp/fix.patch") ::
        patchAddCommand wRepo (strList "sub") ::
        (patchSubCommands wRepo (strList "x") ++
          patchCommitCommands wRepo (strList "sub")),
       POutcome.returned none) :=
  ⟨rfl, rfl⟩

/-- C6 (amended): every `Run`-dispatched command sequence aborts at the
first executor failure — the failing command is the last one issued,
nothing after it is issued, and the executor's error is returned
unmodified.  This covers `Checkout`, `ApplyPatch`, `AddSubmodule`,
`RemoveSubmodule`, `BumpSubmodule` in full, and every `Run`-dispatched
phase of `PatchSubmodule` (the initial apply, the fallback
stage-and-commit pair, and the final stage-and-commit pair whether or not
the fallback ran).  The one exception, forced by the counterexample, is
`PatchSubmodule`'s staging command, dispatched via `CombinedOutput`: its
failure with a matching diagnostic triggers the submodule fallback and
does not abort the call. -/
theorem runDispatched_abort_on_first_failure :
    (∀ (run : Command → Option Str) (r : Repo) (ref : Str) (k : Nat) (e : Str),
      firstFailAt run (checkoutCommands r ref) k e →
        checkout r run ref = ((checkoutCommands r ref).take (k + 1), some e)) ∧
    (∀ (run : Command → Option Str) (r : Repo) (patch e : Str),
      run (applyPatchCommand r patch) = some e →
        applyPatch r run patch = ([applyPatchCommand r patch], some e)) ∧
    (∀ (run : Command → Option Str) (r : Repo) (path url ref branch : Str)
        (k : Nat) (e : Str),
      firstFailAt run (addSubmoduleCommands r path url ref branch) k e →
        addSubmodule r run path url ref branch =
          ((addSubmoduleCommands r path url ref branch).take (k + 1), some e)) ∧
    (∀ (run : Command → Option Str) (r : Repo) (path : Str) (k : Nat) (e : Str),
      firstFailAt run (removeSubmoduleCommands r path) k e →
        removeSubmodule r run path =
          ((removeSubmoduleCommands r path).take (k + 1), some e)) ∧
    (∀ (run : Command → Option Str) (r : Repo) (path sha : Str) (k : Nat) (e : Str),
      firstFailAt run (bumpSubmoduleCommands r path sha) k e →
        bumpSubmodule r run path sha =
          ((bumpSubmoduleCommands r path sha).take (k + 1), some e)) ∧
    (∀ (run : Command → Option Str) (co : Command → Str × Option Str) (r : Repo)
        (path file e : Str),
      run (patchApplyCommand r path file) = some e →
        patchSubmodule r run co path file =
          ([patchApplyCommand r path file], POutcome.returned (some e))) ∧
    (∀ (run : Command → Option Str) (co : Command → Str × Option Str) (r : Repo)
        (path file out aerr sub : Str) (k : Nat) (e : Str),
      run (patchApplyCommand r path file) = none →
      co (patchAddCommand r path) = (out, some aerr) →
      matchSubmodule out = some sub →
      firstFailAt run (patchSubCommands r sub) k e →
        patchSubmodule r run co path file =
          (patchApplyCommand r path file :: patchAddCommand r path ::
            (patchSubCommands r sub).take (k + 1), POutcome.returned (some e))) ∧
    (∀ (run : Command → Option Str) (co : Command → Str × Option Str) (r : Repo)
        (path file out aerr sub : Str) (k : Nat) (e : Str),
      run (patchApplyCommand r path file) = none →
      co (patchAddCommand r path) = (out, some aerr) →
      matchSubmodule out = some sub →
      (∀ c ∈ patchSubCommands r sub, run c = none) →
      firstFailAt run (patchCommitCommands r path) k e →
        patchSubmodule r run co path file =
          (patchApplyCommand r path file :: patchAddCommand r path ::
            (patchSubCommands r sub ++ (patchCommitCommands r path).take (k + 1)),
            POutcome.returned (some e))) ∧
    (∀ (run : Command → Option Str) (co : Command → Str × Option Str) (r : Repo)
        (path file out : Str) (k : Nat) (e : Str),
      run (patchApplyCommand r path file) = none →
      co (patchAddCommand r path) = (out, none) →
      firstFailAt run (patchCommitCommands r path) k e →
        patchSubmodule r run co path file =
          (patchApplyCommand r path file :: patchAddCommand r path ::
            (patchCommitCommands r path).take (k + 1), POutcome.returned (some e))) := by
  refine ⟨?_, ?_, ?_, ?_, ?_, ?_, ?_, ?_, ?_⟩
  · intro run r ref k e h
    exact runAll_firstFail run _ k e h
  · intro run r patch e h
    simp [applyPatch, h]
  · intro run r path url ref branch k e h
    exact runAll_firstFail run _ k e h
  · intro run r path k e h
    exact runAll_firstFail run _ k e h
  · intro run r path sha k e h
    exact runAll_firstFail run _ k e h
  · intro run co r path file e h
    simp [patchSubmodule, h]
  · intro run co r path file out aerr sub k e h1 h2 h3 h4
    have hs := runAll_firstFail run (patchSubCommands r sub) k e h4
    simp [patchSubmodule, h1, h2, h3, hs]
  · intro run co r path file out aerr sub k e h1 h2 h3 h4 h5
    have hsub := runAll_all_ok run (patchSubCommands r sub) h4
    have hc := runAll_firstFail run (patchCommitCommands r path) k e h5
    simp [patchSubmodule, h1, h2, h3, hsub, hc]
  · intro run co r path file out k e h1 h2 h3
    have hc := runAll_firstFail run (patchCommitCommands r path) k e h3
    simp [patchSubmodule, h1, h2, hc]

/-- Witness for the amended C6: a runner failing on the second `Checkout`
command (`clean -ffd`) truncates the trace after it and surfaces the
error. -/
theorem runDispatched_abort_on_first_failure_witness :
    checkout wRepo
        (fun c => if c.args = [strList "clean", strList "-ffd"]
                  then some (strList "boom") else none)
        (strList "main") =
      ((checkoutCommands wRepo (strList "main")).take 2, some (strList "boom")) :=
  runDispatched_abort_on_first_failure.1
    (fun c => if c.args = [strList "clean", strList "-ffd"]
              then some (strList "boom") else none)
    wRepo (strList "main") 1 (strList "boom") (by decide)

/-! ### C7 -/

/-- C7: `CheckoutBranch` first runs the branch-reference verification; if
that succeeds (the branch exists) it returns the descriptive
already-exists error naming the branch and never issues the creation
command; otherwise it issues the create-and-checkout command, succeeding
exactly when that command succeeds. -/
theorem checkoutBranch_exists_check (r : Repo) (run : Command → Option Str)
    (name : Str) :
    (run (revParseCommand r name) = none →
      checkoutBranch r run name =
        ([revParseCommand r name], some (branchExistsError name))) ∧
    (∀ e, run (revParseCommand r name) = some e →
      checkoutBranch r run name =
        ([revParseCommand r name, checkoutBranchCommand r name],
          run (checkoutBranchCommand r name))) := by
  constructor
  · intro h
    simp [checkoutBranch, h]
  · intro e h
    simp [checkoutBranch, h]

/-- Witness for C7: with a runner on which the verification succeeds, the
call fails with the already-exists error and only the verification
command is issued. -/
theorem checkoutBranch_exists_check_witness :
    checkoutBranch wRepo wRunOk (strList "feature") =
      ([revParseCommand wRepo (strList "feature")],
        some (branchExistsError (strList "feature"))) :=
  (checkoutBranch_exists_check wRepo wRunOk (strList "feature")).1 rfl

/-! ### C10 -/

/-- C10: any failure of the verification command — whatever its cause —
makes `CheckoutBranch` proceed to branch creation: the creation command is
issued, and the call succeeds exactly when the creation command succeeds. -/
theorem checkoutBranch_verify_failure_creates (r : Repo)
    (run : Command → Option Str) (name e : Str)
    (h : run (revParseCommand r name) = some e) :
    (checkoutBranch r run name).1 =
      [revParseCommand r name, checkoutBranchCommand r name] ∧
    ((checkoutBranch r run name).2 = none ↔
      run (checkoutBranchCommand r name) = none) := by
  simp [checkoutBranch, h]

/-- Witness for C10: a runner failing verification with an unrelated error
(`fatal: corrupt repository`) still leads to an attempted, here
successful, branch creation. -/
theorem checkoutBranch_verify_failure_creates_witness :
    (checkoutBranch wRepo
        (fun c => if c.args.head? = some (strList "rev-parse")
                  then some (strList "fatal: corrupt repository") else none)
        (strList "feature")).1 =
      [revParseCommand wRepo (strList "feature"),
       checkoutBranchCommand wRepo (strList "feature")] ∧
    ((checkoutBranch wRepo
        (fun c => if c.args.head? = some (strList "rev-parse")
                  then some (strList "fatal: corrupt repository") else none)
        (strList "feature")).2 = none ↔
      (fun c => if c.args.head? = some (strList "rev-parse")
                then some (strList "fatal: corrupt repository") else none)
        (checkoutBranchCommand wRepo (strList "feature")) = none) :=
  checkoutBranch_verify_failure_creates wRepo
    (fun c => if c.args.head? = some (strList "rev-parse")
              then some (strList "fatal: corrupt repository") else none)
    (strList "feature") (strList "fatal: corrupt repository") (by decide)

/-! ### C8 -/

/-- When `os.Stat` answers exactly "exists / does not exist" (predicate
`ex`), the stat-filtering pass of `submodules` keeps exactly the declared
paths, joined with the root, that exist. -/
theorem filterMap_stat_eq (r : Repo) (fs : FS) (ex : Str → Bool)
    (hstat : ∀ p, fs.stat p = if ex p then Except.ok () else Except.error FsError.notExist) :
    ∀ l : List Str, (l.filterMap (fun modulePath =>
        let fullModulePath := filepathJoin r.repo modulePath
        match fs.stat fullModulePath with
        | .error .notExist => none
        | _ => some fullModulePath)) =
      (l.map (filepathJoin r.repo)).filter ex := by
  intro l
  induction l with
  | nil => rfl
  | cons a t ih =>
    simp only [List.filterMap_cons, List.map_cons, List.filter_cons]
    rw [hstat (filepathJoin r.repo a)]
    cases hx : ex (filepathJoin r.repo a) with
    | true => simp [hx, ih]
    | false => simp [hx, ih]

/-- C8: `submodules()` returns exactly the manifest-declared paths
(`path = ` lines after trimming) that exist on disk, each joined with the
root; in particular a manifest declaring `a` and `b` with only `a` on
disk yields exactly `["/repo/a"]`. -/
theorem submodules_declared_existing :
    (∀ (r : Repo) (fs : FS) (content : Str) (ex : Str → Bool),
      fs.readFile (filepathJoin r.repo (strList ".gitmodules")) = Except.ok content →
      (∀ p, fs.stat p = if ex p then Except.ok () else Except.error FsError.notExist) →
      submodules r fs = Except.ok
        (((parseModulePaths content).map (filepathJoin r.repo)).filter ex)) ∧
    (∀ fs : FS,
      fs.readFile (filepathJoin (strList "/repo") (strList ".gitmodules")) =
        Except.ok (strList "path = a\npath = b") →
      (∀ p, fs.stat p = if p = strList "/repo/a" then Except.ok ()
                        else Except.error FsError.notExist) →
      submodules ⟨strList "/repo", [], []⟩ fs = Except.ok [strList "/repo/a"]) := by
  constructor
  · intro r fs content ex h1 h2
    simp only [submodules, h1]
    rw [filterMap_stat_eq r fs ex h2]
  · intro fs h1 h2
    simp only [submodules, h1]
    rw [show parseModulePaths (strList "path = a\npath = b") =
      [strList "a", strList "b"] from by decide]
    simp only [List.filterMap_cons, h2]
    rfl

/-- A concrete file system for the C8 witness: the manifest declares `a`
and `b`, only `/repo/a` exists. -/
def wFs : FS :=
  ⟨fun p => if p = strList "/repo/.gitmodules"
            then Except.ok (strList "path = a\npath = b")
            else Except.error FsError.notExist,
   fun p => if p = strList "/repo/a" then Except.ok ()
            else Except.error FsError.notExist⟩

/-- Witness for C8 on the concrete file system `wFs`. -/
theorem submodules_declared_existing_witness :
    submodules ⟨strList "/repo", [], []⟩ wFs = Except.ok [strList "/repo/a"] :=
  submodules_declared_existing.2 wFs rfl (fun _ => rfl)

/-! ### C9 -/

/-- C9: a missing manifest yields an empty result and no error; any other
manifest read failure is returned to the caller unmodified. -/
theorem submodules_manifest_errors :
    (∀ (r : Repo) (fs : FS),
      fs.readFile (filepathJoin r.repo (strList ".gitmodules")) =
        Except.error FsError.notExist →
      submodules r fs = Except.ok []) ∧
    (∀ (r : Repo) (fs : FS) (msg : Str),
      fs.readFile (filepathJoin r.repo (strList ".gitmodules")) =
        Except.error (FsError.other msg) →
      submodules r fs = Except.error (FsError.other msg)) := by
  constructor
  · intro r fs h
    simp [submodules, h]
  · intro r fs msg h
    simp [submodules, h]

/-- A file system with no files, for the C9 witness. -/
def wFsAbsent : FS :=
  ⟨fun _ => Except.error FsError.notExist, fun _ => Except.error FsError.notExist⟩

/-- Witness for C9: with no manifest on disk, `submodules` returns `ok []`. -/
theorem submodules_manifest_errors_witness :
    submodules wRepo wFsAbsent = Except.ok [] :=
  submodules_manifest_errors.1 wRepo wFsAbsent rfl

/-! ### C4 -/

/-- C4: whenever `PatchSubmodule` returns success, it has committed at the
root with message `Knit patch of <path>`; and the additional commit
`Knit submodule patch of <X>` in the directory resolved from `X` appears
exactly when the staging step failed with a diagnostic matching the
"is in submodule" shape with capture `X`. -/
theorem patchSubmodule_commit_structure :
    ∀ (r : Repo) (run : Command → Option Str) (co : Command → Str × Option Str)
      (path file : Str) (tr : List Command),
    (∀ out, co (patchAddCommand r path) = (out, none) →
      patchSubmodule r run co path file = (tr, POutcome.returned none) →
      tr.filter isCommitCommand =
        [commitCommand r (strList "Knit patch of " ++ path) r.repo]) ∧
    (∀ out aerr sub, co (patchAddCommand r path) = (out, some aerr) →
      matchSubmodule out = some sub →
      patchSubmodule r run co path file = (tr, POutcome.returned none) →
      tr.filter isCommitCommand =
        [commitCommand r (strList "Knit submodule patch of " ++ sub)
           (filepathJoin r.repo sub),
         commitCommand r (strList "Knit patch of " ++ path) r.repo]) := by
  intro r run co path file tr
  constructor
  · intro out hco hps
    cases hra : run (patchApplyCommand r path file) with
    | some e => simp [patchSubmodule, hra] at hps
    | none =>
      simp only [patchSubmodule, hra, hco] at hps
      rcases hr : runAll run (patchCommitCommands r path) with ⟨t2, res2⟩
      rw [hr] at hps
      simp only [Prod.mk.injEq, POutcome.returned.injEq] at hps
      obtain ⟨htr, hres⟩ := hps
      subst hres
      obtain ⟨ht2, -⟩ := runAll_ok_trace run (patchCommitCommands r path) t2 hr
      subst ht2
      rw [← htr]
      rfl
  · intro out aerr sub hco hm hps
    cases hra : run (patchApplyCommand r path file) with
    | some e => simp [patchSubmodule, hra] at hps
    | none =>
      simp only [patchSubmodule, hra, hco, hm] at hps
      rcases hs : runAll run (patchSubCommands r sub) with ⟨t1, res1⟩
      rw [hs] at hps
      cases res1 with
      | some e => simp at hps
      | none =>
        simp only at hps
        rcases hr : runAll run (patchCommitCommands r path) with ⟨t2, res2⟩
        rw [hr] at hps
        simp only [Prod.mk.injEq, POutcome.returned.injEq] at hps
        obtain ⟨htr, hres⟩ := hps
        subst hres
        obtain ⟨ht1, -⟩ := runAll_ok_trace run (patchSubCommands r sub) t1 hs
        obtain ⟨ht2, -⟩ := runAll_ok_trace run (patchCommitCommands r path) t2 hr
        subst ht1
        subst ht2
        rw [← htr]
        rfl

/-- A combined-output runner whose staging succeeds, for the C4 witness. -/
def wCoOk : Command → Str × Option Str := fun _ => ([], none)

/-- Witness for C4: a fault-free call commits once, at the root, with
message `Knit patch of sub`. -/
theorem patchSubmodule_commit_structure_witness :
    ((patchSubmodule wRepo wRunOk wCoOk (strList "sub") (strList "/tmp/fix.patch")).1).filter
        isCommitCommand =
      [commitCommand wRepo (strList "Knit patch of " ++ strList "sub") wRepo.repo] :=
  (patchSubmodule_commit_structure wRepo wRunOk wCoOk (strList "sub")
      (strList "/tmp/fix.patch")
      ((patchSubmodule wRepo wRunOk wCoOk (strList "sub") (strList "/tmp/fix.patch")).1)).1
    [] rfl rfl

/-! ### C2 -/

/-- A combined-output runner whose staging fails with a diagnostic that
does not match the "is in submodule" pattern. -/
def wCoNoMatch : Command → Str × Option Str :=
  fun _ => (strList "unrelated failure", some (strList "exit status 1"))

/-- Counterexample to C2 as stated: with a staging failure whose output
does not match the pattern, `PatchSubmodule` does not return an error to
the caller — it terminates abnormally (the Go panic from indexing the
absent capture group), `crashed` in the embedding. -/
theorem patchSubmodule_parse_failure_counterexample :
    (patchSubmodule wRepo wRunOk wCoNoMatch (strList "sub")
      (strList "/tmp/fix.patch")).2 = POutcome.crashed := rfl

/-- C2 (amended): when the staging step fails and its diagnostic does not
match the "is in submodule" pattern, the call terminates abnormally — a
runtime panic from indexing the empty match, not a returned error and not
a silently swallowed condition; nothing after the staging step is issued. -/
theorem patchSubmodule_parse_failure_crashes :
    ∀ (r : Repo) (run : Command → Option Str) (co : Command → Str × Option Str)
      (path file out aerr : Str),
    run (patchApplyCommand r path file) = none →
    co (patchAddCommand r path) = (out, some aerr) →
    matchSubmodule out = none →
    patchSubmodule r run co path file =
      ([patchApplyCommand r path file, patchAddCommand r path], POutcome.crashed) := by
  intro r run co path file out aerr h1 h2 h3
  simp [patchSubmodule, h1, h2, h3]

/-- Witness for the amended C2 at a concrete non-matching diagnostic. -/
theorem patchSubmodule_parse_failure_crashes_witness :
    patchSubmodule wRepo wRunOk wCoNoMatch (strList "sub") (strList "/tmp/fix.patch") =
      ([patchApplyCommand wRepo (strList "sub") (strList "/tmp/fix.patch"),
        patchAddCommand wRepo (strList "sub")], POutcome.crashed) :=
  patchSubmodule_parse_failure_crashes wRepo wRunOk wCoNoMatch (strList "sub")
    (strList "/tmp/fix.patch") (strList "unrelated failure") (strList "exit status 1")
    rfl rfl (by decide)
